import Mathlib

/-!
Verification of the request-lifecycle core of a neural-style-transfer bot
(`neural_style_transfer_telegram_bot/bot.py`), shallowly embedded in Lean.

The embedding follows the source closely:
* `get_max_pics_per_request`, the capacity/trimming logic of `process_images`
  (bot.py lines 221-271) become pure functions;
* the effectful tail of `process_images` (lines 272-345) becomes a trace
  generator over an oracle environment describing the concurrent context
  (state re-check results, registry contents, awaited outcome);
* `cancel_handler` (lines 94-135) becomes a function over a small model of
  `asyncio` future states;
* the `REQUESTS_IN_PROCESSING` dict (line 75) becomes an association list
  with `setdefault` / conditional-`pop` operations;
* `save_images_as_mediagroup` (lines 182-206) becomes a pure function;
* the aiogram 2.x dispatcher (first matching handler in registration order;
  a handler registered without a `state` argument matches only when the
  user has no FSM state set, `state=*` matches any state) is modelled to
  settle the dispatch claims.
-/

namespace NSTBot

/-- `TaskType` enumeration imported from `inference` (bot.py line 16). -/
inductive TaskType where
  | style_transfer
  | photo2van_gogh
  | photo2monet
  | photo2cezanne
  | photo2ukiyoe
deriving DecidableEq, Repr

/-- bot.py line 26: `MAX_PICS_PER_REQUEST = 10`. -/
def MAX_PICS_PER_REQUEST : Nat := 10

/-- bot.py lines 62-66: for `style_transfer` the limit is forced even by
subtracting `limit % 2`. -/
def get_max_pics_per_request (task_type : TaskType) : Nat :=
  let max_pics_per_request := MAX_PICS_PER_REQUEST
  if task_type = TaskType.style_transfer then
    max_pics_per_request - max_pics_per_request % 2
  else
    max_pics_per_request

/-- Reasons `process_images` rejects a submission before any state change
(bot.py lines 224-229 and 233-238). -/
inductive RejectReason where
  | noImages
  | onlyOneImage
deriving DecidableEq, Repr

/-- Result of the capacity check of `process_images`: either an early return
(rejection) or the trimmed image list together with the discard count that
the answer text reports (`above_limit`; `0` when nothing was trimmed and no
trim message is produced). -/
inductive CapacityResult where
  | rejected (reason : RejectReason)
  | accepted (kept : List Nat) (discardReported : Nat)
deriving DecidableEq, Repr

/-- bot.py lines 221-271: the pure capacity/trimming part of `process_images`.
Images are abstracted as `Nat` identifiers; `del images[k:]` becomes
`List.take k`.  Python computes `max(len(images) % 2, len(images) - limit)`
over `int`; on the branch where it is evaluated (`odd_number or too_many`)
the Lean `Nat` truncated subtraction agrees with the Python value. -/
def process_images_capacity (task_type : TaskType) (images : List Nat) :
    CapacityResult :=
  if images.isEmpty then
    CapacityResult.rejected RejectReason.noImages
  else
    let max_pics_per_request := get_max_pics_per_request task_type
    if task_type = TaskType.style_transfer then
      if images.length = 1 then
        CapacityResult.rejected RejectReason.onlyOneImage
      else
        let odd_number : Bool := images.length % 2 != 0
        let too_many : Bool := decide (max_pics_per_request < images.length)
        if odd_number || too_many then
          let above_limit :=
            max (images.length % 2) (images.length - max_pics_per_request)
          CapacityResult.accepted
            (images.take (images.length - above_limit)) above_limit
        else
          CapacityResult.accepted images 0
    else
      if decide (max_pics_per_request < images.length) then
        CapacityResult.accepted (images.take max_pics_per_request)
          (images.length - max_pics_per_request)
      else
        CapacityResult.accepted images 0

lemma get_max_pics_per_request_eq (t : TaskType) :
    get_max_pics_per_request t = 10 := by
  cases t <;> rfl

lemma isEmpty_false_of_pos {images : List Nat} (h : 1 ≤ images.length) :
    images.isEmpty = false := by
  cases images with
  | nil => simp at h
  | cons a l => rfl

lemma capacity_style_trim (images : List Nat) (h2 : 2 ≤ images.length)
    (hcond : images.length % 2 ≠ 0 ∨ 10 < images.length) :
    process_images_capacity TaskType.style_transfer images =
      CapacityResult.accepted
        (images.take
          (images.length - max (images.length % 2) (images.length - 10)))
        (max (images.length % 2) (images.length - 10)) := by
  have hne : images.isEmpty = false := isEmpty_false_of_pos (by omega)
  have hb : (images.length % 2 != 0 || decide (10 < images.length)) = true := by
    simp only [Bool.or_eq_true, bne_iff_ne, ne_eq, decide_eq_true_eq]
    omega
  simp only [process_images_capacity, hne, Bool.false_eq_true, if_false,
    get_max_pics_per_request_eq, if_neg (by omega : ¬images.length = 1), hb]
  simp

lemma capacity_style_keep (images : List Nat) (h2 : 2 ≤ images.length)
    (heven : images.length % 2 = 0) (hle : images.length ≤ 10) :
    process_images_capacity TaskType.style_transfer images =
      CapacityResult.accepted images 0 := by
  have hne : images.isEmpty = false := isEmpty_false_of_pos (by omega)
  have hb : (images.length % 2 != 0 || decide (10 < images.length)) = false := by
    simp only [Bool.or_eq_false_iff, bne_eq_false_iff_eq, decide_eq_false_iff_not,
      not_lt]
    omega
  simp only [process_images_capacity, hne, Bool.false_eq_true, if_false,
    get_max_pics_per_request_eq, if_neg (by omega : ¬images.length = 1), hb]
  simp

/-- C1: Submission capacity rule: at the submit trigger, for the
`StyleTransfer` job type with limit forced even (10), if the buffer length
`n` is odd and/or exceeds the limit, trailing assets are discarded,
oldest-first retained, down to the largest even count not exceeding the
limit, and the discard count is reported; for every non-pair job type, if
`n` exceeds the limit (10), exactly `n - limit` trailing assets are
discarded; in both cases, if the usable count is 0 (or 1 for
`StyleTransfer`), the submission is rejected (the early return keeps the
conversation in the asset-collection state; see
`c3_processing_before_submission` for the trace-level statement). -/
theorem c1_submission_capacity (t : TaskType) (images : List Nat) :
    (get_max_pics_per_request TaskType.style_transfer = 10 ∧
      get_max_pics_per_request TaskType.style_transfer % 2 = 0) ∧
    (t = TaskType.style_transfer → 2 ≤ images.length →
      ∃ kept discarded,
        process_images_capacity t images =
          CapacityResult.accepted kept discarded ∧
        kept = images.take kept.length ∧
        kept.length % 2 = 0 ∧
        kept.length ≤ 10 ∧
        discarded = images.length - kept.length ∧
        (∀ m, m % 2 = 0 → m ≤ images.length → m ≤ 10 → m ≤ kept.length)) ∧
    (t ≠ TaskType.style_transfer → 10 < images.length →
      process_images_capacity t images =
        CapacityResult.accepted (images.take 10) (images.length - 10)) ∧
    (images.length = 0 ∨ (t = TaskType.style_transfer ∧ images.length = 1) →
      ∃ r, process_images_capacity t images = CapacityResult.rejected r) := by
  have hmax := get_max_pics_per_request_eq t
  refine ⟨⟨rfl, rfl⟩, ?styleCase, ?presetCase, ?rejectCase⟩
  case styleCase =>
    intro ht hn
    subst ht
    by_cases hcond : images.length % 2 ≠ 0 ∨ 10 < images.length
    · -- trimming branch
      have ha_le : max (images.length % 2) (images.length - 10) ≤ images.length := by
        have h2 : images.length % 2 < 2 := Nat.mod_lt _ (by omega)
        omega
      refine ⟨images.take
          (images.length - max (images.length % 2) (images.length - 10)),
        max (images.length % 2) (images.length - 10),
        capacity_style_trim images hn hcond, ?_, ?_, ?_, ?_, ?_⟩ <;>
        rw [List.length_take,
          Nat.min_eq_left (by omega : images.length -
            max (images.length % 2) (images.length - 10) ≤ images.length)]
      · have h2 : images.length % 2 < 2 := Nat.mod_lt _ (by omega)
        omega
      · have h2 : images.length % 2 < 2 := Nat.mod_lt _ (by omega)
        omega
      · omega
      · intro m hm hmn hm10
        omega
    · -- no trimming: even and within limit
      push_neg at hcond
      obtain ⟨heven, hle⟩ := hcond
      exact ⟨images, 0, capacity_style_keep images hn heven hle,
        by simp, heven, hle, by omega, fun m _ hmn _ => hmn⟩
  case presetCase =>
    intro ht hn
    have hne : images.isEmpty = false := isEmpty_false_of_pos (by omega)
    simp only [process_images_capacity, hne, Bool.false_eq_true, if_false,
      if_neg ht, get_max_pics_per_request_eq]
    simp [hn]
  case rejectCase =>
    rintro (h0 | ⟨ht, h1⟩)
    · have : images = [] := List.length_eq_zero.mp h0
      subst this
      exact ⟨RejectReason.noImages, rfl⟩
    · subst ht
      have hne : images.isEmpty = false := isEmpty_false_of_pos (by omega)
      refine ⟨RejectReason.onlyOneImage, ?_⟩
      simp [process_images_capacity, hne, h1]

/-- Closed instance of `c1_submission_capacity`: a preset with 11 buffered
images keeps the oldest 10 and discards 1. -/
theorem c1_submission_capacity_witness :
    process_images_capacity TaskType.photo2monet [0, 1, 2, 3, 4, 5, 6, 7, 8, 9, 10] =
      CapacityResult.accepted
        ([0, 1, 2, 3, 4, 5, 6, 7, 8, 9, 10].take 10)
        ([0, 1, 2, 3, 4, 5, 6, 7, 8, 9, 10].length - 10) :=
  (c1_submission_capacity TaskType.photo2monet
    [0, 1, 2, 3, 4, 5, 6, 7, 8, 9, 10]).2.2.1 (by decide) (by decide)

/-! ### Effect-trace model of the tail of `process_images` (bot.py 272-345) -/

/-- Message categories answered by `process_images`.  `waitForProcessing d`
is the line-272 answer whose text is prefixed (for `d > 0`) by the trim
report naming `d` ignored images; the three failure kinds and the result
messages are the literal answers of lines 313-336. -/
inductive MsgKind where
  | noImagesPrompt
  | onlyOneImagePrompt
  | waitForProcessing (discardReported : Nat)
  | tooBigMsg
  | tooSmallMsg
  | unknownErrMsg
  | resultMediaGroup (numResults : Nat)
  | resultReadyMsg
deriving DecidableEq, Repr

/-- Atomic observable steps of the `process_images` handler. -/
inductive Effect where
  | answer (m : MsgKind)
  | setStateProcessing
  | taskCreate
  | download (i : Nat)
  | taskDoneOk
  | taskDoneFailedLogged
  | submitPool
  | registryInsert
  | stateFinish
  | registryPopSelf
deriving DecidableEq, Repr

/-- Terminal behaviour of `await future` (bot.py lines 305-327). -/
inductive AwaitResult where
  | ok (numResults : Nat)
  | cancelledError
  | tooBig
  | tooSmall
  | otherError
deriving DecidableEq, Repr

/-- Oracle environment for one `process_images` run: the buffered data plus
everything decided by the concurrent context (FSM re-check results during
materialization, whether `setdefault` found an existing registry entry,
the awaited outcome, whether `task.done()` raises, and whether the registry
still maps this user to this very future at the `finally` block). -/
structure Env where
  task_type : TaskType
  images : List Nat
  stateStillProcessing : Nat → Bool
  registryHasOther : Bool
  awaitResult : AwaitResult
  doneRaises : Bool
  registryStillSelf : Bool

/-- A `task.done()` call wrapped in `try/except Exception: logger.exception`
(bot.py lines 285-289, 299-303, 341-345): a raising release is logged and
swallowed, a quiet one just returns. -/
def taskDoneGuarded (e : Env) : List Effect :=
  if e.doneRaises then [Effect.taskDoneFailedLogged] else [Effect.taskDoneOk]

/-- bot.py lines 279-290: download each image, then re-check that the FSM
state is still `processing`; on a failed check, log, release the task and
return (the `Bool` component is `true` when the loop aborted). -/
def materializeLoop (e : Env) (i : Nat) : List Nat → List Effect × Bool
  | [] => ([], false)
  | _ :: rest =>
    if e.stateStillProcessing i then
      let r := materializeLoop e (i + 1) rest
      (Effect.download i :: r.1, r.2)
    else
      (Effect.download i :: taskDoneGuarded e, true)

/-- bot.py lines 305-336: the `try/except/else` around `await future`. -/
def awaitBranch (e : Env) : List Effect :=
  match e.awaitResult with
  | AwaitResult.ok n =>
    [Effect.stateFinish, Effect.answer (MsgKind.resultMediaGroup n),
      Effect.answer MsgKind.resultReadyMsg]
  | AwaitResult.cancelledError => []
  | AwaitResult.tooBig => [Effect.stateFinish, Effect.answer MsgKind.tooBigMsg]
  | AwaitResult.tooSmall => [Effect.stateFinish, Effect.answer MsgKind.tooSmallMsg]
  | AwaitResult.otherError => [Effect.stateFinish, Effect.answer MsgKind.unknownErrMsg]

/-- bot.py lines 337-345: the `finally` block pops the registry entry only
when it still refers to this very future, then releases the task under the
same try/except guard. -/
def finallyBlock (e : Env) : List Effect :=
  (if e.registryStillSelf then [Effect.registryPopSelf] else []) ++ taskDoneGuarded e

def rejectPrompt : RejectReason → MsgKind
  | RejectReason.noImages => MsgKind.noImagesPrompt
  | RejectReason.onlyOneImage => MsgKind.onlyOneImagePrompt

/-- bot.py lines 213-345: the whole `process_images` handler as a trace of
effects.  A capacity rejection answers a prompt and returns before the FSM
transition; otherwise the handler answers, moves the FSM to `processing`,
creates the `Task`, materializes the kept images with per-write re-checks,
and either aborts, or submits to the pool and runs the
supersession-check / await / finally sequence. -/
def process_images_run (e : Env) : List Effect :=
  match process_images_capacity e.task_type e.images with
  | CapacityResult.rejected r => [Effect.answer (rejectPrompt r)]
  | CapacityResult.accepted kept discarded =>
    Effect.answer (MsgKind.waitForProcessing discarded) ::
      Effect.setStateProcessing :: Effect.taskCreate ::
      ((materializeLoop e 0 kept).1 ++
        if (materializeLoop e 0 kept).2 then []
        else
          Effect.submitPool ::
            (if e.registryHasOther then taskDoneGuarded e
             else Effect.registryInsert :: (awaitBranch e ++ finallyBlock e)))

/-- Number of `task.done()` invocations in a trace. -/
def cleanupCalls (t : List Effect) : Nat :=
  t.countP (fun eff =>
    eff == Effect.taskDoneOk || eff == Effect.taskDoneFailedLogged)

/-- Number of `Task(task_type)` constructions in a trace. -/
def taskCreations (t : List Effect) : Nat :=
  t.countP (fun eff => eff == Effect.taskCreate)

lemma cleanupCalls_append (l1 l2 : List Effect) :
    cleanupCalls (l1 ++ l2) = cleanupCalls l1 + cleanupCalls l2 :=
  List.countP_append _ _ _

lemma taskCreations_append (l1 l2 : List Effect) :
    taskCreations (l1 ++ l2) = taskCreations l1 + taskCreations l2 :=
  List.countP_append _ _ _

lemma cleanupCalls_taskDoneGuarded (e : Env) :
    cleanupCalls (taskDoneGuarded e) = 1 := by
  cases h : e.doneRaises <;> simp [taskDoneGuarded, h, cleanupCalls]

lemma taskCreations_taskDoneGuarded (e : Env) :
    taskCreations (taskDoneGuarded e) = 0 := by
  cases h : e.doneRaises <;> simp [taskDoneGuarded, h, taskCreations]

lemma cleanupCalls_cons_other (eff : Effect) (t : List Effect)
    (h1 : eff ≠ Effect.taskDoneOk) (h2 : eff ≠ Effect.taskDoneFailedLogged) :
    cleanupCalls (eff :: t) = cleanupCalls t := by
  simp [cleanupCalls, List.countP_cons, h1, h2]

lemma taskCreations_cons_other (eff : Effect) (t : List Effect)
    (h : eff ≠ Effect.taskCreate) :
    taskCreations (eff :: t) = taskCreations t := by
  simp [taskCreations, List.countP_cons, h]

lemma taskCreations_cons_create (t : List Effect) :
    taskCreations (Effect.taskCreate :: t) = taskCreations t + 1 := by
  simp [taskCreations, List.countP_cons]

lemma cleanupCalls_materializeLoop (e : Env) (i : Nat) (l : List Nat) :
    cleanupCalls (materializeLoop e i l).1 =
      if (materializeLoop e i l).2 then 1 else 0 := by
  induction l generalizing i with
  | nil => simp [materializeLoop, cleanupCalls]
  | cons x tl ih =>
    by_cases h : e.stateStillProcessing i
    · rw [show materializeLoop e i (x :: tl) =
        ((Effect.download i :: (materializeLoop e (i + 1) tl).1),
          (materializeLoop e (i + 1) tl).2) by simp [materializeLoop, h]]
      rw [cleanupCalls_cons_other _ _ (by simp) (by simp)]
      exact ih (i + 1)
    · rw [show materializeLoop e i (x :: tl) =
        ((Effect.download i :: taskDoneGuarded e), true) by
          simp [materializeLoop, h]]
      rw [cleanupCalls_cons_other _ _ (by simp) (by simp)]
      simp [cleanupCalls_taskDoneGuarded e]

lemma taskCreations_materializeLoop (e : Env) (i : Nat) (l : List Nat) :
    taskCreations (materializeLoop e i l).1 = 0 := by
  induction l generalizing i with
  | nil => simp [materializeLoop, taskCreations]
  | cons x tl ih =>
    by_cases h : e.stateStillProcessing i
    · rw [show materializeLoop e i (x :: tl) =
        ((Effect.download i :: (materializeLoop e (i + 1) tl).1),
          (materializeLoop e (i + 1) tl).2) by simp [materializeLoop, h]]
      rw [taskCreations_cons_other _ _ (by simp)]
      exact ih (i + 1)
    · rw [show materializeLoop e i (x :: tl) =
        ((Effect.download i :: taskDoneGuarded e), true) by
          simp [materializeLoop, h]]
      rw [taskCreations_cons_other _ _ (by simp)]
      exact taskCreations_taskDoneGuarded e

lemma cleanupCalls_materializeLoop_false (e : Env) (i : Nat) (l : List Nat)
    (h : (materializeLoop e i l).2 = false) :
    cleanupCalls (materializeLoop e i l).1 = 0 := by
  have := cleanupCalls_materializeLoop e i l
  rw [h] at this
  simpa using this

lemma cleanupCalls_materializeLoop_true (e : Env) (i : Nat) (l : List Nat)
    (h : (materializeLoop e i l).2 = true) :
    cleanupCalls (materializeLoop e i l).1 = 1 := by
  have := cleanupCalls_materializeLoop e i l
  rw [h] at this
  simpa using this

lemma cleanupCalls_awaitBranch (e : Env) : cleanupCalls (awaitBranch e) = 0 := by
  cases h : e.awaitResult <;> simp [awaitBranch, h, cleanupCalls]

lemma taskCreations_awaitBranch (e : Env) : taskCreations (awaitBranch e) = 0 := by
  cases h : e.awaitResult <;> simp [awaitBranch, h, taskCreations]

lemma cleanupCalls_finallyBlock (e : Env) : cleanupCalls (finallyBlock e) = 1 := by
  cases h : e.registryStillSelf <;>
    rw [finallyBlock, h] <;>
    simp only [if_true, if_false, Bool.false_eq_true, List.nil_append,
      cleanupCalls_append, cleanupCalls_taskDoneGuarded]
  rw [cleanupCalls_cons_other _ _ (by simp) (by simp)]
  simp [cleanupCalls]

lemma taskCreations_finallyBlock (e : Env) : taskCreations (finallyBlock e) = 0 := by
  cases h : e.registryStillSelf <;>
    rw [finallyBlock, h] <;>
    simp only [if_true, if_false, Bool.false_eq_true, List.nil_append,
      taskCreations_append, taskCreations_taskDoneGuarded]
  rw [taskCreations_cons_other _ _ (by simp)]
  simp [taskCreations]

lemma run_cleanup_spec (e : Env) :
    cleanupCalls (process_images_run e) = taskCreations (process_images_run e) ∧
    taskCreations (process_images_run e) ≤ 1 := by
  unfold process_images_run
  cases hcap : process_images_capacity e.task_type e.images with
  | rejected r =>
    constructor <;> simp [cleanupCalls, taskCreations]
  | accepted kept discarded =>
    rw [cleanupCalls_cons_other _ _ (by simp) (by simp),
      cleanupCalls_cons_other _ _ (by simp) (by simp),
      cleanupCalls_cons_other _ _ (by simp) (by simp),
      taskCreations_cons_other _ _ (by simp),
      taskCreations_cons_other _ _ (by simp),
      taskCreations_cons_create,
      cleanupCalls_append, taskCreations_append,
      taskCreations_materializeLoop]
    cases hab : (materializeLoop e 0 kept).2
    · rw [cleanupCalls_materializeLoop_false e 0 kept hab]
      simp only [Bool.false_eq_true, if_false]
      cases hro : e.registryHasOther
      · simp only [Bool.false_eq_true, if_false]
        rw [cleanupCalls_cons_other _ _ (by simp) (by simp),
          taskCreations_cons_other _ _ (by simp),
          cleanupCalls_cons_other _ _ (by simp) (by simp),
          taskCreations_cons_other _ _ (by simp),
          cleanupCalls_append, taskCreations_append,
          cleanupCalls_awaitBranch, taskCreations_awaitBranch,
          cleanupCalls_finallyBlock, taskCreations_finallyBlock]
        exact ⟨rfl, by omega⟩
      · simp only [if_true]
        rw [cleanupCalls_cons_other _ _ (by simp) (by simp),
          taskCreations_cons_other _ _ (by simp),
          cleanupCalls_taskDoneGuarded, taskCreations_taskDoneGuarded]
        exact ⟨rfl, by omega⟩
    · rw [cleanupCalls_materializeLoop_true e 0 kept hab]
      simp only [if_true]
      constructor <;> simp [cleanupCalls, taskCreations]

/-- The handler creates exactly one `Task` when the capacity check accepts,
and none on a capacity rejection. -/
lemma taskCreations_run_eq (e : Env) :
    taskCreations (process_images_run e) =
      (match process_images_capacity e.task_type e.images with
       | CapacityResult.rejected _ => 0
       | CapacityResult.accepted _ _ => 1) := by
  unfold process_images_run
  cases hcap : process_images_capacity e.task_type e.images with
  | rejected r => simp [taskCreations]
  | accepted kept discarded =>
    rw [taskCreations_cons_other _ _ (by simp),
      taskCreations_cons_other _ _ (by simp),
      taskCreations_cons_create,
      taskCreations_append, taskCreations_materializeLoop]
    cases hab : (materializeLoop e 0 kept).2
    · simp only [Bool.false_eq_true, if_false]
      cases hro : e.registryHasOther
      · simp only [Bool.false_eq_true, if_false]
        rw [taskCreations_cons_other _ _ (by simp),
          taskCreations_cons_other _ _ (by simp),
          taskCreations_append, taskCreations_awaitBranch,
          taskCreations_finallyBlock]
      · simp only [if_true]
        rw [taskCreations_cons_other _ _ (by simp),
          taskCreations_taskDoneGuarded]
    · simp only [if_true]
      simp [taskCreations]

/-- C4: Invariant I2 (exactly-once cleanup): on every modelled exit path of
`process_images` — success, backend error (`ImageTooBig`, `ImageTooSmall`,
unknown), cancellation, and supersession detected either during
materialization or at registry insertion — the working-directory release
hook `task.done()` is invoked exactly once per created `Task` (and on a
capacity rejection no `Task` is created and no release happens). -/
theorem c4_exactly_once_cleanup (e : Env) :
    cleanupCalls (process_images_run e) = taskCreations (process_images_run e) ∧
    taskCreations (process_images_run e) ≤ 1 :=
  run_cleanup_spec e

/-! ### C3: ordering of the `Processing` transition and pool submission -/

lemma mem_taskDoneGuarded {e : Env} {eff : Effect}
    (h : eff ∈ taskDoneGuarded e) :
    eff = Effect.taskDoneOk ∨ eff = Effect.taskDoneFailedLogged := by
  by_cases hd : e.doneRaises <;> simp [taskDoneGuarded, hd] at h <;> simp [h]

lemma mem_materializeLoop {e : Env} {i : Nat} {l : List Nat} {eff : Effect}
    (h : eff ∈ (materializeLoop e i l).1) :
    (∃ j, eff = Effect.download j) ∨ eff = Effect.taskDoneOk ∨
      eff = Effect.taskDoneFailedLogged := by
  induction l generalizing i with
  | nil => simp [materializeLoop] at h
  | cons x tl ih =>
    by_cases hc : e.stateStillProcessing i
    · rw [show materializeLoop e i (x :: tl) =
        ((Effect.download i :: (materializeLoop e (i + 1) tl).1),
          (materializeLoop e (i + 1) tl).2) by simp [materializeLoop, hc]] at h
      rcases List.mem_cons.mp h with h | h
      · exact Or.inl ⟨i, h⟩
      · exact ih h
    · rw [show materializeLoop e i (x :: tl) =
        ((Effect.download i :: taskDoneGuarded e), true) by
          simp [materializeLoop, hc]] at h
      rcases List.mem_cons.mp h with h | h
      · exact Or.inl ⟨i, h⟩
      · exact Or.inr (mem_taskDoneGuarded h)

lemma mem_awaitBranch_stateFinish {e : Env}
    (h : Effect.stateFinish ∈ awaitBranch e) :
    (∃ n, e.awaitResult = AwaitResult.ok n) ∨
      e.awaitResult = AwaitResult.tooBig ∨
      e.awaitResult = AwaitResult.tooSmall ∨
      e.awaitResult = AwaitResult.otherError := by
  cases ha : e.awaitResult <;> simp [awaitBranch, ha] at h ⊢

lemma stateFinish_not_mem_finallyBlock (e : Env) :
    Effect.stateFinish ∉ finallyBlock e := by
  intro h
  cases hr : e.registryStillSelf <;> cases hd : e.doneRaises <;>
    simp [finallyBlock, taskDoneGuarded, hr, hd] at h

/-- Concrete run used to refute C3: a preset request with one buffered image
whose FSM re-check after the first download fails (the request was cancelled
or superseded during materialization). -/
def envC3 : Env where
  task_type := TaskType.photo2monet
  images := [0]
  stateStillProcessing := fun _ => false
  registryHasOther := false
  awaitResult := AwaitResult.ok 0
  doneRaises := false
  registryStillSelf := true

/-- C3 as stated is false: the trace of this run sets the ConversationState
to `Processing` (bot.py line 276, `StylizationRequest.next()`) yet contains
no submission to the Worker Pool at all — `process_images` enters
`Processing` before, not after, the task is submitted (line 292). -/
theorem c3_counterexample :
    Effect.setStateProcessing ∈ process_images_run envC3 ∧
    Effect.submitPool ∉ process_images_run envC3 := by decide

/-! ### C7: cancellation / supersession detected during materialization -/

lemma materializeLoop_aborts {e : Env} {l : List Nat} {k i : Nat}
    (hi : i < l.length) (hfail : e.stateStillProcessing (k + i) = false)
    (hbefore : ∀ j, j < i → e.stateStillProcessing (k + j) = true) :
    (materializeLoop e k l).2 = true := by
  induction l generalizing k i with
  | nil => simp at hi
  | cons x tl ih =>
    cases i with
    | zero =>
      have h0 : e.stateStillProcessing k = false := by simpa using hfail
      simp [materializeLoop, h0]
    | succ i =>
      have hk : e.stateStillProcessing k = true := by
        simpa using hbefore 0 (Nat.succ_pos i)
      rw [show materializeLoop e k (x :: tl) =
        ((Effect.download k :: (materializeLoop e (k + 1) tl).1),
          (materializeLoop e (k + 1) tl).2) by simp [materializeLoop, hk]]
      refine ih (Nat.lt_of_succ_lt_succ (by simpa using hi)) ?_ ?_
      · have : k + 1 + i = k + (i + 1) := by omega
        rw [this]
        exact hfail
      · intro j hj
        have : k + 1 + j = k + (j + 1) := by omega
        rw [this]
        exact hbefore (j + 1) (by omega)

lemma materializeLoop_download_mem {e : Env} {l : List Nat} {k j : Nat}
    (h : Effect.download j ∈ (materializeLoop e k l).1) :
    k ≤ j ∧ ∀ j2, k ≤ j2 → j2 < j → e.stateStillProcessing j2 = true := by
  induction l generalizing k with
  | nil => simp [materializeLoop] at h
  | cons x tl ih =>
    by_cases hc : e.stateStillProcessing k
    · rw [show materializeLoop e k (x :: tl) =
        ((Effect.download k :: (materializeLoop e (k + 1) tl).1),
          (materializeLoop e (k + 1) tl).2) by simp [materializeLoop, hc]] at h
      rcases List.mem_cons.mp h with h | h
      · have hjk : j = k := by simpa using h
        subst hjk
        exact ⟨le_refl j, fun j2 h1 h2 => absurd h2 (by omega)⟩
      · obtain ⟨h1, h2⟩ := ih h
        refine ⟨by omega, fun j2 hk2 hj2 => ?_⟩
        rcases Nat.lt_or_ge j2 (k + 1) with hlt | hge
        · have : j2 = k := by omega
          subst this
          simpa using hc
        · exact h2 j2 hge hj2
    · rw [show materializeLoop e k (x :: tl) =
        ((Effect.download k :: taskDoneGuarded e), true) by
          simp [materializeLoop, hc]] at h
      rcases List.mem_cons.mp h with h | h
      · have hjk : j = k := by simpa using h
        subst hjk
        exact ⟨le_refl j, fun j2 h1 h2 => absurd h2 (by omega)⟩
      · rcases mem_taskDoneGuarded h with h | h <;> simp at h

/-- C7: if the conversation is cancelled or superseded during
materialization — detected by the FSM re-check between per-asset writes
(the check after download `i` fails, all earlier checks passed) — then
materialization aborts immediately (no download with an index beyond `i`),
the partially written `Task` is released exactly once via `task.done()`, and
no submission to the Worker Pool occurs and no registry handle is inserted
for the user. -/
theorem c7_abort_during_materialization (e : Env) (kept : List Nat) (d i : Nat)
    (hacc : process_images_capacity e.task_type e.images =
      CapacityResult.accepted kept d)
    (hi : i < kept.length)
    (hfail : e.stateStillProcessing i = false)
    (hbefore : ∀ j, j < i → e.stateStillProcessing j = true) :
    Effect.submitPool ∉ process_images_run e ∧
    Effect.registryInsert ∉ process_images_run e ∧
    cleanupCalls (process_images_run e) = 1 ∧
    (∀ j, Effect.download j ∈ process_images_run e → j ≤ i) := by
  have hab : (materializeLoop e 0 kept).2 = true :=
    materializeLoop_aborts (k := 0) hi (by simpa using hfail)
      (by simpa using hbefore)
  unfold process_images_run
  simp only [hacc, hab, if_true]
  refine ⟨?_, ?_, ?_, ?_⟩
  · intro h
    rcases List.mem_cons.mp h with h | h
    · simp at h
    rcases List.mem_cons.mp h with h | h
    · simp at h
    rcases List.mem_cons.mp h with h | h
    · simp at h
    rw [List.append_nil] at h
    rcases mem_materializeLoop h with ⟨j, hj⟩ | hj | hj <;> simp at hj
  · intro h
    rcases List.mem_cons.mp h with h | h
    · simp at h
    rcases List.mem_cons.mp h with h | h
    · simp at h
    rcases List.mem_cons.mp h with h | h
    · simp at h
    rw [List.append_nil] at h
    rcases mem_materializeLoop h with ⟨j, hj⟩ | hj | hj <;> simp at hj
  · rw [cleanupCalls_cons_other _ _ (by simp) (by simp),
      cleanupCalls_cons_other _ _ (by simp) (by simp),
      cleanupCalls_cons_other _ _ (by simp) (by simp),
      List.append_nil, cleanupCalls_materializeLoop_true e 0 kept hab]
  · intro j h
    rcases List.mem_cons.mp h with h | h
    · simp at h
    rcases List.mem_cons.mp h with h | h
    · simp at h
    rcases List.mem_cons.mp h with h | h
    · simp at h
    rw [List.append_nil] at h
    obtain ⟨-, h2⟩ := materializeLoop_download_mem h
    by_contra hji
    exact absurd (h2 i (Nat.zero_le i) (by omega)) (by simp [hfail])

/-- Concrete run used to instantiate `c7_abort_during_materialization`: the
FSM re-check already fails after the first download. -/
def envC7 : Env where
  task_type := TaskType.photo2monet
  images := [5, 6]
  stateStillProcessing := fun _ => false
  registryHasOther := false
  awaitResult := AwaitResult.ok 0
  doneRaises := false
  registryStillSelf := true

/-- Closed instance of `c7_abort_during_materialization`. -/
theorem c7_abort_during_materialization_witness :
    Effect.submitPool ∉ process_images_run envC7 ∧
    Effect.registryInsert ∉ process_images_run envC7 ∧
    cleanupCalls (process_images_run envC7) = 1 ∧
    (∀ j, Effect.download j ∈ process_images_run envC7 → j ≤ 0) :=
  c7_abort_during_materialization envC7 [5, 6] 0 0 (by decide) (by decide)
    rfl (fun j h => absurd h (Nat.not_lt_zero j))

/-- C3 amended: the ConversationState is set to `Processing` before
materialization and submission; a submission to the Worker Pool occurs only
in a run that has already set `Processing` earlier in its trace, and the
handler itself leaves `Processing` (its `state.finish()`) only via a
terminal outcome of the awaited computation — explicit cancellation and
supersession reset the state in other handlers. -/
theorem c3_processing_before_submission (e : Env) :
    (Effect.submitPool ∈ process_images_run e →
      ∃ d rest, process_images_run e =
          Effect.answer (MsgKind.waitForProcessing d) ::
            Effect.setStateProcessing :: Effect.taskCreate :: rest ∧
        Effect.submitPool ∈ rest) ∧
    (Effect.stateFinish ∈ process_images_run e →
      (∃ n, e.awaitResult = AwaitResult.ok n) ∨
        e.awaitResult = AwaitResult.tooBig ∨
        e.awaitResult = AwaitResult.tooSmall ∨
        e.awaitResult = AwaitResult.otherError) := by
  unfold process_images_run
  cases hcap : process_images_capacity e.task_type e.images with
  | rejected r =>
    constructor <;> intro h <;> simp at h
  | accepted kept discarded =>
    constructor
    · intro h
      refine ⟨discarded, _, rfl, ?_⟩
      rcases List.mem_cons.mp h with h | h
      · exact absurd h (by simp)
      rcases List.mem_cons.mp h with h | h
      · exact absurd h (by simp)
      rcases List.mem_cons.mp h with h | h
      · exact absurd h (by simp)
      exact h
    · intro h
      rcases List.mem_cons.mp h with h | h
      · exact absurd h (by simp)
      rcases List.mem_cons.mp h with h | h
      · exact absurd h (by simp)
      rcases List.mem_cons.mp h with h | h
      · exact absurd h (by simp)
      rcases List.mem_append.mp h with h | h
      · rcases mem_materializeLoop h with ⟨j, hj⟩ | hj | hj <;> simp at hj
      · cases hab : (materializeLoop e 0 kept).2
        · rw [hab] at h
          simp only [Bool.false_eq_true, if_false] at h
          rcases List.mem_cons.mp h with h | h
          · exact absurd h (by simp)
          cases hro : e.registryHasOther
          · rw [hro] at h
            simp only [Bool.false_eq_true, if_false] at h
            rcases List.mem_cons.mp h with h | h
            · exact absurd h (by simp)
            rcases List.mem_append.mp h with h | h
            · exact mem_awaitBranch_stateFinish h
            · exact absurd h (stateFinish_not_mem_finallyBlock e)
          · rw [hro] at h
            simp only [if_true] at h
            rcases mem_taskDoneGuarded h with h | h <;> simp at h
        · rw [hab] at h
          simp only [if_true] at h
          simp at h

/-- Closed instance of `c3_processing_before_submission`: in a full
successful run, `setStateProcessing` is the second trace element and the
pool submission happens strictly later. -/
theorem c3_processing_before_submission_witness :
    ∃ d rest, process_images_run
        { task_type := TaskType.photo2monet
          images := [0]
          stateStillProcessing := fun _ => true
          registryHasOther := false
          awaitResult := AwaitResult.ok 1
          doneRaises := false
          registryStillSelf := true } =
        Effect.answer (MsgKind.waitForProcessing d) ::
          Effect.setStateProcessing :: Effect.taskCreate :: rest ∧
      Effect.submitPool ∈ rest :=
  (c3_processing_before_submission
    { task_type := TaskType.photo2monet
      images := [0]
      stateStillProcessing := fun _ => true
      registryHasOther := false
      awaitResult := AwaitResult.ok 1
      doneRaises := false
      registryStillSelf := true }).1 (by decide)

/-! ### C6: a failing `task.done()` is logged and swallowed -/

/-- Effects other than the two possible outcomes of a guarded `task.done()`
call: the user-visible and registry-visible behaviour of a run. -/
def keepEffect (eff : Effect) : Bool :=
  !(eff == Effect.taskDoneOk || eff == Effect.taskDoneFailedLogged)

lemma filter_taskDoneGuarded (e : Env) :
    (taskDoneGuarded e).filter keepEffect = [] := by
  cases hd : e.doneRaises <;> simp [taskDoneGuarded, hd, keepEffect]

lemma filter_cons_keep (eff : Effect) (t : List Effect)
    (h : keepEffect eff = true) :
    (eff :: t).filter keepEffect = eff :: t.filter keepEffect := by
  simp [List.filter_cons, h]

lemma registryHasOther_scrub (e : Env) (b : Bool) :
    ({ e with doneRaises := b } : Env).registryHasOther = e.registryHasOther := rfl

lemma registryStillSelf_scrub (e : Env) (b : Bool) :
    ({ e with doneRaises := b } : Env).registryStillSelf = e.registryStillSelf := rfl

lemma awaitBranch_doneRaises (e : Env) (b : Bool) :
    awaitBranch { e with doneRaises := b } = awaitBranch e := rfl

lemma filter_finallyBlock (e : Env) :
    (finallyBlock e).filter keepEffect =
      if e.registryStillSelf then [Effect.registryPopSelf] else [] := by
  cases hr : e.registryStillSelf <;>
    simp [finallyBlock, hr, List.filter_append, filter_taskDoneGuarded, keepEffect]

lemma materializeLoop_doneRaises (e : Env) (b : Bool) (i : Nat) (l : List Nat) :
    (materializeLoop { e with doneRaises := b } i l).2 =
      (materializeLoop e i l).2 ∧
    (materializeLoop { e with doneRaises := b } i l).1.filter keepEffect =
      (materializeLoop e i l).1.filter keepEffect := by
  induction l generalizing i with
  | nil => exact ⟨rfl, rfl⟩
  | cons x tl ih =>
    by_cases hc : e.stateStillProcessing i
    · rw [show materializeLoop e i (x :: tl) =
        ((Effect.download i :: (materializeLoop e (i + 1) tl).1),
          (materializeLoop e (i + 1) tl).2) by simp [materializeLoop, hc],
        show materializeLoop { e with doneRaises := b } i (x :: tl) =
        ((Effect.download i ::
            (materializeLoop { e with doneRaises := b } (i + 1) tl).1),
          (materializeLoop { e with doneRaises := b } (i + 1) tl).2) by
            simp [materializeLoop, hc]]
      obtain ⟨h1, h2⟩ := ih (i + 1)
      refine ⟨h1, ?_⟩
      rw [filter_cons_keep _ _ (by simp [keepEffect]),
        filter_cons_keep _ _ (by simp [keepEffect]), h2]
    · rw [show materializeLoop e i (x :: tl) =
        ((Effect.download i :: taskDoneGuarded e), true) by
          simp [materializeLoop, hc],
        show materializeLoop { e with doneRaises := b } i (x :: tl) =
        ((Effect.download i :: taskDoneGuarded { e with doneRaises := b }), true) by
          simp [materializeLoop, hc]]
      refine ⟨rfl, ?_⟩
      rw [filter_cons_keep _ _ (by simp [keepEffect]),
        filter_cons_keep _ _ (by simp [keepEffect]),
        filter_taskDoneGuarded, filter_taskDoneGuarded]

lemma run_doneRaises_filter (e : Env) (b1 b2 : Bool) :
    (process_images_run { e with doneRaises := b1 }).filter keepEffect =
      (process_images_run { e with doneRaises := b2 }).filter keepEffect := by
  unfold process_images_run
  cases hcap : process_images_capacity e.task_type e.images with
  | rejected r =>
    have h1 : process_images_capacity
        ({ e with doneRaises := b1 } : Env).task_type
        ({ e with doneRaises := b1 } : Env).images =
        CapacityResult.rejected r := hcap
    have h2 : process_images_capacity
        ({ e with doneRaises := b2 } : Env).task_type
        ({ e with doneRaises := b2 } : Env).images =
        CapacityResult.rejected r := hcap
    simp only [h1, h2]
  | accepted kept discarded =>
    have h1 : process_images_capacity
        ({ e with doneRaises := b1 } : Env).task_type
        ({ e with doneRaises := b1 } : Env).images =
        CapacityResult.accepted kept discarded := hcap
    have h2 : process_images_capacity
        ({ e with doneRaises := b2 } : Env).task_type
        ({ e with doneRaises := b2 } : Env).images =
        CapacityResult.accepted kept discarded := hcap
    simp only [h1, h2]
    rw [filter_cons_keep _ _ (by simp [keepEffect]),
      filter_cons_keep _ _ (by simp [keepEffect]),
      filter_cons_keep _ _ (by simp [keepEffect]),
      filter_cons_keep _ _ (by simp [keepEffect]),
      filter_cons_keep _ _ (by simp [keepEffect]),
      filter_cons_keep _ _ (by simp [keepEffect]),
      List.filter_append, List.filter_append,
      (materializeLoop_doneRaises e b1 0 kept).1,
      (materializeLoop_doneRaises e b2 0 kept).1,
      (materializeLoop_doneRaises e b1 0 kept).2,
      (materializeLoop_doneRaises e b2 0 kept).2]
    congr 1
    congr 1
    cases hab : (materializeLoop e 0 kept).2
    · simp only [Bool.false_eq_true, if_false]
      rw [filter_cons_keep _ _ (by simp [keepEffect]),
        filter_cons_keep _ _ (by simp [keepEffect])]
      congr 1
      cases hro : e.registryHasOther
      · simp only [Bool.false_eq_true, if_false]
        rw [filter_cons_keep _ _ (by simp [keepEffect]),
          filter_cons_keep _ _ (by simp [keepEffect]),
          List.filter_append, List.filter_append,
          filter_finallyBlock, filter_finallyBlock]
        rfl
      · simp only [if_true]
        rw [filter_taskDoneGuarded, filter_taskDoneGuarded]
    · simp only [if_true]

lemma taskDoneOk_not_mem_taskDoneGuarded {e : Env} (hd : e.doneRaises = true) :
    Effect.taskDoneOk ∉ taskDoneGuarded e := by
  simp [taskDoneGuarded, hd]

lemma taskDoneOk_not_mem_materializeLoop {e : Env} (hd : e.doneRaises = true)
    (i : Nat) (l : List Nat) :
    Effect.taskDoneOk ∉ (materializeLoop e i l).1 := by
  induction l generalizing i with
  | nil => simp [materializeLoop]
  | cons x tl ih =>
    by_cases hc : e.stateStillProcessing i
    · rw [show materializeLoop e i (x :: tl) =
        ((Effect.download i :: (materializeLoop e (i + 1) tl).1),
          (materializeLoop e (i + 1) tl).2) by simp [materializeLoop, hc]]
      intro h
      rcases List.mem_cons.mp h with h | h
      · simp at h
      · exact ih (i + 1) h
    · rw [show materializeLoop e i (x :: tl) =
        ((Effect.download i :: taskDoneGuarded e), true) by
          simp [materializeLoop, hc]]
      intro h
      rcases List.mem_cons.mp h with h | h
      · simp at h
      · exact taskDoneOk_not_mem_taskDoneGuarded hd h

lemma taskDoneOk_not_mem_finallyBlock {e : Env} (hd : e.doneRaises = true) :
    Effect.taskDoneOk ∉ finallyBlock e := by
  intro h
  simp only [finallyBlock] at h
  rcases List.mem_append.mp h with h | h
  · cases hrs : e.registryStillSelf <;> rw [hrs] at h <;> simp at h
  · exact taskDoneOk_not_mem_taskDoneGuarded hd h

lemma taskDoneOk_not_mem_run {e : Env} (hd : e.doneRaises = true) :
    Effect.taskDoneOk ∉ process_images_run e := by
  unfold process_images_run
  cases hcap : process_images_capacity e.task_type e.images with
  | rejected r => simp
  | accepted kept discarded =>
    intro h
    rcases List.mem_cons.mp h with h | h
    · simp at h
    rcases List.mem_cons.mp h with h | h
    · simp at h
    rcases List.mem_cons.mp h with h | h
    · simp at h
    rcases List.mem_append.mp h with h | h
    · exact taskDoneOk_not_mem_materializeLoop hd 0 kept h
    cases hab : (materializeLoop e 0 kept).2 <;> rw [hab] at h
    · simp only [Bool.false_eq_true, if_false] at h
      rcases List.mem_cons.mp h with h | h
      · simp at h
      cases hro : e.registryHasOther <;> rw [hro] at h
      · simp only [Bool.false_eq_true, if_false] at h
        rcases List.mem_cons.mp h with h | h
        · simp at h
        rcases List.mem_append.mp h with h | h
        · cases har : e.awaitResult <;> simp [awaitBranch, har] at h
        · exact taskDoneOk_not_mem_finallyBlock hd h
      · simp only [if_true] at h
        exact taskDoneOk_not_mem_taskDoneGuarded hd h
    · simp only [if_true] at h
      simp at h

/-- C6: a failure of the working-directory release (an exception raised by
`task.done()`) is logged and swallowed: the run's user-visible and
registry-visible trace is identical whether or not the release raises, the
release is still attempted the same number of times, and when it raises the
failure shows up only as the logged `taskDoneFailedLogged` step (never a
quiet release). -/
theorem c6_release_failure_swallowed (e : Env) (b1 b2 : Bool) :
    (process_images_run { e with doneRaises := b1 }).filter keepEffect =
      (process_images_run { e with doneRaises := b2 }).filter keepEffect ∧
    cleanupCalls (process_images_run { e with doneRaises := b1 }) =
      cleanupCalls (process_images_run { e with doneRaises := b2 }) ∧
    Effect.taskDoneOk ∉ process_images_run { e with doneRaises := true } := by
  refine ⟨run_doneRaises_filter e b1 b2, ?_, taskDoneOk_not_mem_run rfl⟩
  calc cleanupCalls (process_images_run { e with doneRaises := b1 })
      = taskCreations (process_images_run { e with doneRaises := b1 }) :=
        (run_cleanup_spec _).1
    _ = taskCreations (process_images_run { e with doneRaises := b2 }) :=
        (taskCreations_run_eq { e with doneRaises := b1 }).trans
          (taskCreations_run_eq { e with doneRaises := b2 }).symm
    _ = cleanupCalls (process_images_run { e with doneRaises := b2 }) :=
        ((run_cleanup_spec _).1).symm

/-! ### C8: surfacing of computation failures -/

/-- `charListHasLead pat s` : `pat` is a leading block of `s`. -/
def charListHasLead : List Char → List Char → Bool
  | [], _ => true
  | _ :: _, [] => false
  | p :: ps, c :: cs => p == c && charListHasLead ps cs

/-- `charListHasSub pat s` : `pat` occurs contiguously somewhere in `s`. -/
def charListHasSub (pat : List Char) : List Char → Bool
  | [] => charListHasLead pat []
  | c :: cs => charListHasLead pat (c :: cs) || charListHasSub pat cs

/-- Substring test used to state facts about the literal reply texts. -/
def strContains (s pat : String) : Bool := charListHasSub pat.data s.data

def newRequestMarker : String := "/request"
def tooBigMarker : String := "too big"
def tooSmallMarker : String := "too small"
def unknownMarker : String := "unknown error"

def tooBigText : String :=
  "Sorry, couldn\x27t process your images: all or some of them are too big. Try another /request?"
def tooSmallText : String :=
  "Sorry, couldn\x27t process your images: all or some of them are too small. Try another /request?"
def unknownErrText : String :=
  "Sorry, couldn\x27t process your images due to unknown error. Try another /request?"
def resultReadyText : String :=
  "Here is the result! Start a new /request?"

/-- The literal texts of the terminal answers of `process_images`
(bot.py lines 313-315, 319-321, 325-327, 336). -/
def terminalMsgText : MsgKind → Option String
  | MsgKind.tooBigMsg => some tooBigText
  | MsgKind.tooSmallMsg => some tooSmallText
  | MsgKind.unknownErrMsg => some unknownErrText
  | MsgKind.resultReadyMsg => some resultReadyText
  | _ => none

/-- Spec-side mapping (spec §7 error taxonomy): which message kind must
surface each failing await outcome. -/
def surfacedFailureMsg : AwaitResult → Option MsgKind
  | AwaitResult.tooBig => some MsgKind.tooBigMsg
  | AwaitResult.tooSmall => some MsgKind.tooSmallMsg
  | AwaitResult.otherError => some MsgKind.unknownErrMsg
  | _ => none

/-- Spec-side check that a reply text names the failure cause. -/
def causeMarkerOk : AwaitResult → String → Bool
  | AwaitResult.tooBig, s => strContains s tooBigMarker
  | AwaitResult.tooSmall, s => strContains s tooSmallMarker
  | AwaitResult.otherError, s => strContains s unknownMarker
  | _, _ => false

/-- Conversation FSM states of `StylizationRequest` (bot.py lines 69-72);
`none` is the default (Idle) state. -/
inductive FSMState where
  | waiting_for_style_chosen
  | waiting_for_images
  | processing
deriving DecidableEq, Repr, Fintype

/-- One effect's action on the per-user FSM state: `setStateProcessing` is
`StylizationRequest.next()` (line 276), `stateFinish` is `state.finish()`
which clears the state (Idle). -/
def stepState (s : Option FSMState) : Effect → Option FSMState
  | Effect.setStateProcessing => some FSMState.processing
  | Effect.stateFinish => none
  | _ => s

def stateAfter (s : Option FSMState) : List Effect → Option FSMState
  | [] => s
  | eff :: rest => stateAfter (stepState s eff) rest

lemma stateAfter_append (s : Option FSMState) (l1 l2 : List Effect) :
    stateAfter s (l1 ++ l2) = stateAfter (stateAfter s l1) l2 := by
  induction l1 generalizing s with
  | nil => rfl
  | cons x rest ih => rw [List.cons_append, stateAfter, stateAfter, ih]

lemma stateAfter_of_no_state_effects (s : Option FSMState) (l : List Effect)
    (h : ∀ eff ∈ l, eff ≠ Effect.setStateProcessing ∧ eff ≠ Effect.stateFinish) :
    stateAfter s l = s := by
  induction l generalizing s with
  | nil => rfl
  | cons x rest ih =>
    obtain ⟨h1, h2⟩ := h x (List.mem_cons_self x rest)
    rw [stateAfter, show stepState s x = s by cases x <;> simp [stepState] at h1 h2 ⊢]
    exact ih s (fun eff he => h eff (List.mem_cons_of_mem _ he))

lemma materializeLoop_not_aborted_downloads {e : Env} {i : Nat} {l : List Nat}
    (h : (materializeLoop e i l).2 = false) :
    ∀ eff ∈ (materializeLoop e i l).1, ∃ j, eff = Effect.download j := by
  induction l generalizing i with
  | nil =>
    intro eff he
    simp [materializeLoop] at he
  | cons x tl ih =>
    by_cases hc : e.stateStillProcessing i
    · rw [show materializeLoop e i (x :: tl) =
        ((Effect.download i :: (materializeLoop e (i + 1) tl).1),
          (materializeLoop e (i + 1) tl).2) by simp [materializeLoop, hc]] at h ⊢
      intro eff he
      rcases List.mem_cons.mp he with he | he
      · exact ⟨i, he⟩
      · exact ih h eff he
    · rw [show materializeLoop e i (x :: tl) =
        ((Effect.download i :: taskDoneGuarded e), true) by
          simp [materializeLoop, hc]] at h
      simp at h

lemma stateAfter_finallyBlock (s : Option FSMState) (e : Env) :
    stateAfter s (finallyBlock e) = s := by
  cases hr : e.registryStillSelf <;> cases hd : e.doneRaises <;>
    simp [finallyBlock, taskDoneGuarded, hr, hd, stateAfter, stepState]

lemma answer_not_mem_finallyBlock (e : Env) (m : MsgKind) :
    Effect.answer m ∉ finallyBlock e := by
  intro h
  simp only [finallyBlock] at h
  rcases List.mem_append.mp h with h | h
  · cases hr : e.registryStillSelf <;> rw [hr] at h <;> simp at h
  · rcases mem_taskDoneGuarded h with h | h <;> simp at h

/-- C8: for every awaited computation that terminates in failure (reaching
the `await` with the registry slot claimed and materialization complete):
`ImageTooBigError` and `ImageTooSmallError` are surfaced verbatim as the
size-related failure answers, any other exception as the unknown-error
answer; every such failure path finishes the FSM state (Idle), the reply
text names the cause and offers a new `/request`, and no success answer is
produced. -/
theorem c8_failure_surfacing (e : Env) (kept : List Nat) (d : Nat)
    (hacc : process_images_capacity e.task_type e.images =
      CapacityResult.accepted kept d)
    (hnoabort : (materializeLoop e 0 kept).2 = false)
    (hnosuper : e.registryHasOther = false)
    (hfail : e.awaitResult = AwaitResult.tooBig ∨
      e.awaitResult = AwaitResult.tooSmall ∨
      e.awaitResult = AwaitResult.otherError) :
    stateAfter (some FSMState.waiting_for_images) (process_images_run e) =
      none ∧
    (∃ m s, surfacedFailureMsg e.awaitResult = some m ∧
      Effect.answer m ∈ process_images_run e ∧
      terminalMsgText m = some s ∧
      strContains s newRequestMarker = true ∧
      causeMarkerOk e.awaitResult s = true) ∧
    Effect.answer MsgKind.resultReadyMsg ∉ process_images_run e := by
  have hdl := materializeLoop_not_aborted_downloads hnoabort
  have hrun : process_images_run e =
      Effect.answer (MsgKind.waitForProcessing d) ::
        Effect.setStateProcessing :: Effect.taskCreate ::
        ((materializeLoop e 0 kept).1 ++
          (Effect.submitPool :: Effect.registryInsert ::
            (awaitBranch e ++ finallyBlock e))) := by
    unfold process_images_run
    simp only [hacc, hnoabort, hnosuper, Bool.false_eq_true, if_false]
  refine ⟨?_, ?_, ?_⟩
  · rw [hrun, stateAfter, stateAfter, stateAfter]
    simp only [stepState]
    rw [stateAfter_append]
    rw [stateAfter_of_no_state_effects (some FSMState.processing)
        (materializeLoop e 0 kept).1
        (fun eff he => by
          obtain ⟨j, hj⟩ := hdl eff he
          subst hj
          exact ⟨by simp, by simp⟩)]
    rw [stateAfter, stateAfter]
    simp only [stepState]
    rw [stateAfter_append]
    rcases hfail with har | har | har <;>
      rw [show awaitBranch e = [Effect.stateFinish,
            Effect.answer ((surfacedFailureMsg e.awaitResult).getD
              MsgKind.resultReadyMsg)] by
          simp [awaitBranch, har, surfacedFailureMsg]] <;>
      rw [stateAfter, stateAfter, stateAfter] <;>
      simp only [stepState] <;>
      exact stateAfter_finallyBlock none e
  · rcases hfail with har | har | har
    · refine ⟨MsgKind.tooBigMsg, tooBigText, by rw [har]; rfl, ?_,
        rfl, by decide, by rw [har]; decide⟩
      rw [hrun]
      simp [awaitBranch, har, List.mem_append]
    · refine ⟨MsgKind.tooSmallMsg, tooSmallText, by rw [har]; rfl, ?_,
        rfl, by decide, by rw [har]; decide⟩
      rw [hrun]
      simp [awaitBranch, har, List.mem_append]
    · refine ⟨MsgKind.unknownErrMsg, unknownErrText, by rw [har]; rfl, ?_,
        rfl, by decide, by rw [har]; decide⟩
      rw [hrun]
      simp [awaitBranch, har, List.mem_append]
  · rw [hrun]
    intro h
    rcases List.mem_cons.mp h with h | h
    · simp at h
    rcases List.mem_cons.mp h with h | h
    · simp at h
    rcases List.mem_cons.mp h with h | h
    · simp at h
    rcases List.mem_append.mp h with h | h
    · obtain ⟨j, hj⟩ := hdl _ h
      simp at hj
    rcases List.mem_cons.mp h with h | h
    · simp at h
    rcases List.mem_cons.mp h with h | h
    · simp at h
    rcases List.mem_append.mp h with h | h
    · rcases hfail with har | har | har <;> simp [awaitBranch, har] at h
    · exact answer_not_mem_finallyBlock e _ h

/-- Concrete run used to instantiate `c8_failure_surfacing`. -/
def envC8 : Env where
  task_type := TaskType.photo2monet
  images := [1]
  stateStillProcessing := fun _ => true
  registryHasOther := false
  awaitResult := AwaitResult.tooBig
  doneRaises := false
  registryStillSelf := true

/-- Closed instance of `c8_failure_surfacing`. -/
theorem c8_failure_surfacing_witness :
    stateAfter (some FSMState.waiting_for_images) (process_images_run envC8) =
      none ∧
    (∃ m s, surfacedFailureMsg envC8.awaitResult = some m ∧
      Effect.answer m ∈ process_images_run envC8 ∧
      terminalMsgText m = some s ∧
      strContains s newRequestMarker = true ∧
      causeMarkerOk envC8.awaitResult s = true) ∧
    Effect.answer MsgKind.resultReadyMsg ∉ process_images_run envC8 :=
  c8_failure_surfacing envC8 [1] 0 (by decide) (by decide) rfl (Or.inl rfl)

/-! ### C2: `cancel_handler` (bot.py lines 94-135) over a model of
`asyncio` futures returned by `loop.run_in_executor` -/

/-- Status of the in-flight future at the moment `cancel_handler` observes
it.  `running b` is a computation currently executing in the worker
subprocess that will eventually finish ok (`b = true`) or raise. -/
inductive FutureState where
  | pendingInQueue
  | running (finishesOk : Bool)
  | doneResult
  | doneError
  | cancelledFut
deriving DecidableEq, Repr

/-- `future.cancel()`: only a not-yet-started future can be cancelled; a
running or completed future is unaffected and `cancel` reports failure. -/
def future_cancel : FutureState → FutureState × Bool
  | FutureState.pendingInQueue => (FutureState.cancelledFut, true)
  | s => (s, false)

/-- `await future` inside `cancel_handler` (exceptions are caught): a
running computation resolves to its eventual outcome, all other states are
already terminal. -/
def future_await_resolve : FutureState → FutureState
  | FutureState.running ok =>
    if ok then FutureState.doneResult else FutureState.doneError
  | s => s

/-- `future.cancelled()`. -/
def future_cancelled : FutureState → Bool
  | FutureState.cancelledFut => true
  | _ => false

/-- `future.done()` (true for completed, errored and cancelled futures;
`cancel_handler` checks `cancelled()` first). -/
def future_done : FutureState → Bool
  | FutureState.doneResult => true
  | FutureState.doneError => true
  | FutureState.cancelledFut => true
  | _ => false

/-- The reply sent by `cancel_handler`: lines 100-102, 123-126, 129-131,
133-135 respectively. -/
inductive CancelReply where
  | nothingToCancel
  | inProcessingCancelled
  | alreadyDone
  | scheduledCancelled
deriving DecidableEq, Repr

/-- What `cancel_handler` observes: the user's FSM state and the user's
`REQUESTS_IN_PROCESSING` entry (with the future's current status). -/
structure CancelEnv where
  convState : Option FSMState
  registryFuture : Option FutureState
deriving DecidableEq, Repr

structure CancelResult where
  reply : CancelReply
  convState : Option FSMState
  registryFuture : Option FutureState
deriving DecidableEq, Repr

/-- bot.py lines 97-135: if no state is set, reply and return (registry
untouched); otherwise finish the state, pop the registry entry, and if a
future was there, request cancellation, await it (exceptions swallowed) and
report `cancelled` / `already done` / the scheduled-request fallback. -/
def cancel_handler (e : CancelEnv) : CancelResult :=
  match e.convState with
  | none =>
    { reply := CancelReply.nothingToCancel
      convState := none
      registryFuture := e.registryFuture }
  | some _ =>
    match e.registryFuture with
    | none =>
      { reply := CancelReply.scheduledCancelled
        convState := none
        registryFuture := none }
    | some fs =>
      let fs1 := (future_cancel fs).1
      let fs2 := future_await_resolve fs1
      if future_cancelled fs2 then
        { reply := CancelReply.inProcessingCancelled
          convState := none
          registryFuture := none }
      else if future_done fs2 then
        { reply := CancelReply.alreadyDone
          convState := none
          registryFuture := none }
      else
        { reply := CancelReply.scheduledCancelled
          convState := none
          registryFuture := none }

/-- C2 as stated is false: when the computation has already produced a
result by the time cancellation is observed, `future.cancel()` fails and
`cancel_handler` replies "The request is already done." — a done outcome,
not the Cancelled signal the claim requires. -/
theorem c2_counterexample :
    (cancel_handler
      { convState := some FSMState.processing
        registryFuture := some FutureState.doneResult }).reply =
      CancelReply.alreadyDone ∧
    CancelReply.alreadyDone ≠ CancelReply.inProcessingCancelled := by decide

/-- C2 amended: when the computation has already produced a result by the
time cancellation is observed, the cancellation has no effect on the
future: the cancel handler still finishes the state and removes the
registry entry, but reports the already-done outcome (not Cancelled), and
the submit handler awaiting that future still delivers the result to the
user.  Cancellation is only reported as `Cancelled` when the future was
actually cancelled (here: still queued). -/
theorem c2_already_done_reported (e : CancelEnv) (s : FSMState)
    (hs : e.convState = some s)
    (hf : e.registryFuture = some FutureState.doneResult) :
    (cancel_handler e).reply = CancelReply.alreadyDone ∧
    (cancel_handler e).convState = none ∧
    (cancel_handler e).registryFuture = none ∧
    (∀ ev : Env, ∀ n, ev.awaitResult = AwaitResult.ok n →
      Effect.answer MsgKind.resultReadyMsg ∈ awaitBranch ev) ∧
    (∀ e2 : CancelEnv, ∀ s2, e2.convState = some s2 →
      e2.registryFuture = some FutureState.pendingInQueue →
      (cancel_handler e2).reply = CancelReply.inProcessingCancelled) := by
  refine ⟨?_, ?_, ?_, ?_, ?_⟩
  · simp [cancel_handler, hs, hf, future_cancel, future_await_resolve,
      future_cancelled, future_done]
  · simp [cancel_handler, hs, hf, future_cancel, future_await_resolve,
      future_cancelled, future_done]
  · simp [cancel_handler, hs, hf, future_cancel, future_await_resolve,
      future_cancelled, future_done]
  · intro ev n h
    simp [awaitBranch, h]
  · intro e2 s2 h2 hf2
    simp [cancel_handler, h2, hf2, future_cancel, future_await_resolve,
      future_cancelled]

/-- Closed instance of `c2_already_done_reported`. -/
theorem c2_already_done_reported_witness :
    (cancel_handler
      { convState := some FSMState.processing
        registryFuture := some FutureState.doneResult }).reply =
      CancelReply.alreadyDone :=
  (c2_already_done_reported
    { convState := some FSMState.processing
      registryFuture := some FutureState.doneResult }
    FSMState.processing rfl rfl).1

/-! ### C9: asset ingestion (`save_images_as_mediagroup`, bot.py 182-206) -/

def mimeJpeg : String := "image/jpeg"
def mimePng : String := "image/png"
def extJpg : String := ".jpg"
def extPng : String := ".png"

/-- An inbound asset message relevant to `save_images_as_mediagroup`: a
Telegram photo, or a document with its declared mime type. -/
inductive Content where
  | photo
  | document (mime_type : String)
deriving DecidableEq, Repr

inductive SaveOutcome where
  | buffered (ext : String)
  | rejectedUnsupportedFormat
deriving DecidableEq, Repr

/-- bot.py lines 186-206: photos are buffered as `.jpg`; documents are
buffered only when their mime type is `image/jpeg` or `image/png`
(with the matching extension); any other document mime type is answered
with the unsupported-format reply and nothing is appended. -/
def save_images_as_mediagroup (c : Content)
    (images : List (Content × String)) :
    SaveOutcome × List (Content × String) :=
  match c with
  | Content.photo => (SaveOutcome.buffered extJpg, images ++ [(c, extJpg)])
  | Content.document mime =>
    if mime = mimeJpeg then
      (SaveOutcome.buffered extJpg, images ++ [(c, extJpg)])
    else if mime = mimePng then
      (SaveOutcome.buffered extPng, images ++ [(c, extPng)])
    else
      (SaveOutcome.rejectedUnsupportedFormat, images)

/-- C9: an asset whose declared format is outside the allow-list (document
mime type neither `image/jpeg` nor `image/png`) is rejected at ingestion
and never appended to the buffer; every allowed-format asset is appended
(at the end, preserving insertion order). -/
theorem c9_format_allow_list (mime : String)
    (images : List (Content × String)) :
    (mime ≠ mimeJpeg → mime ≠ mimePng →
      save_images_as_mediagroup (Content.document mime) images =
        (SaveOutcome.rejectedUnsupportedFormat, images)) ∧
    (save_images_as_mediagroup Content.photo images =
      (SaveOutcome.buffered extJpg, images ++ [(Content.photo, extJpg)])) ∧
    (save_images_as_mediagroup (Content.document mimeJpeg) images =
      (SaveOutcome.buffered extJpg,
        images ++ [(Content.document mimeJpeg, extJpg)])) ∧
    (save_images_as_mediagroup (Content.document mimePng) images =
      (SaveOutcome.buffered extPng,
        images ++ [(Content.document mimePng, extPng)])) := by
  refine ⟨?_, rfl, ?_, ?_⟩
  · intro h1 h2
    simp [save_images_as_mediagroup, h1, h2]
  · simp [save_images_as_mediagroup]
  · simp [save_images_as_mediagroup]
    intro h
    exact absurd h (by decide)

/-- Closed instance of `c9_format_allow_list`: a GIF document is rejected
and the buffer is unchanged. -/
theorem c9_format_allow_list_witness :
    save_images_as_mediagroup (Content.document "image/gif")
        [(Content.photo, extJpg)] =
      (SaveOutcome.rejectedUnsupportedFormat, [(Content.photo, extJpg)]) :=
  (c9_format_allow_list "image/gif" [(Content.photo, extJpg)]).1
    (by decide) (by decide)

/-! ### C5: the `REQUESTS_IN_PROCESSING` registry (bot.py lines 75, 106,
293-304, 337-339) -/

abbrev UserId := Nat
abbrev HandleId := Nat

/-- The process-wide `REQUESTS_IN_PROCESSING` dict, modelled as an
association list (a Python dict holds at most one value per key; the model
lets duplicates be *expressible* so that their absence is a theorem). -/
abbrev Registry := List (UserId × HandleId)

/-- `REQUESTS_IN_PROCESSING.get(uid)` / the lookup inside `setdefault`. -/
def reg_get (r : Registry) (u : UserId) : Option HandleId :=
  match r.find? (fun p => p.1 == u) with
  | some p => some p.2
  | none => none

/-- `REQUESTS_IN_PROCESSING.pop(uid, None)`, the removal part. -/
def reg_remove (r : Registry) (u : UserId) : Registry :=
  r.eraseP (fun p => p.1 == u)

/-- The registry operations the handlers perform:
`submit u h` is `REQUESTS_IN_PROCESSING.setdefault(uid, future)` at line
293 (the caller abandons its task when an entry already exists);
`terminal u h` is the guarded pop of lines 338-339 (`pop` only if the
stored handle `is` this very future); `cancelPop u` is the unconditional
`pop` of line 106 in `cancel_handler`. -/
inductive RegOp where
  | submit (u : UserId) (h : HandleId)
  | terminal (u : UserId) (h : HandleId)
  | cancelPop (u : UserId)
deriving DecidableEq, Repr

def reg_apply (r : Registry) : RegOp → Registry
  | RegOp.submit u h =>
    match reg_get r u with
    | some _ => r
    | none => r ++ [(u, h)]
  | RegOp.terminal u h =>
    if reg_get r u = some h then reg_remove r u else r
  | RegOp.cancelPop u => reg_remove r u

/-- "at most one live handle per user": no user occurs twice. -/
def atMostOne (r : Registry) : Prop :=
  ∀ u : UserId, r.countP (fun p => p.1 == u) ≤ 1

lemma countP_eq_zero_of_get_none {r : Registry} {u : UserId}
    (h : reg_get r u = none) : r.countP (fun p => p.1 == u) = 0 := by
  rw [List.countP_eq_zero]
  intro p hp
  simp only [reg_get] at h
  cases hfind : r.find? (fun p => p.1 == u) with
  | some q => rw [hfind] at h; simp at h
  | none =>
    have := List.find?_eq_none.mp hfind p hp
    simpa using this

lemma countP_reg_remove_le (r : Registry) (u : UserId)
    (q : UserId × HandleId → Bool) :
    (reg_remove r u).countP q ≤ r.countP q :=
  (List.eraseP_sublist r).countP_le q

lemma atMostOne_apply {r : Registry} (op : RegOp) (h : atMostOne r) :
    atMostOne (reg_apply r op) := by
  cases op with
  | submit u hh =>
    cases hg : reg_get r u with
    | some h0 =>
      simp only [reg_apply, hg]
      exact h
    | none =>
      simp only [reg_apply, hg]
      intro u2
      rw [List.countP_append]
      by_cases hu : u2 = u
      · subst hu
        rw [countP_eq_zero_of_get_none hg]
        simp [List.countP_cons]
      · have : List.countP (fun p => p.1 == u2) [(u, hh)] = 0 := by
          simp [List.countP_cons, Ne.symm hu]
        rw [this]
        simpa using h u2
  | terminal u hh =>
    by_cases hg : reg_get r u = some hh
    · simp only [reg_apply, hg, if_true]
      intro u2
      exact le_trans (countP_reg_remove_le r u _) (h u2)
    · simp only [reg_apply, if_neg hg]
      exact h
  | cancelPop u =>
    intro u2
    exact le_trans (countP_reg_remove_le r u _) (h u2)

lemma atMostOne_foldl (ops : List RegOp) (r : Registry) (h : atMostOne r) :
    atMostOne (ops.foldl reg_apply r) := by
  induction ops generalizing r with
  | nil => exact h
  | cons op rest ih => exact ih (reg_apply r op) (atMostOne_apply op h)

/-- C5: Invariant I1 (single-flight): starting from the empty registry,
after any sequence of submit / terminal-cleanup / cancel-pop operations the
registry holds at most one handle per user; `setdefault` never replaces an
existing entry (and the run that finds an existing entry abandons itself:
it never registers its own handle); the terminal cleanup removes the
user's entry when it still refers to this very handle and leaves the
registry untouched when it refers to another (newer) handle. -/
theorem c5_single_flight (ops : List RegOp) (u : UserId) :
    atMostOne (ops.foldl reg_apply []) ∧
    (∀ r : Registry, ∀ h h0 : HandleId, reg_get r u = some h0 →
      reg_apply r (RegOp.submit u h) = r) ∧
    (∀ r : Registry, ∀ h : HandleId, reg_get r u ≠ some h →
      reg_apply r (RegOp.terminal u h) = r) ∧
    (∀ r : Registry, ∀ h : HandleId, reg_get r u = some h →
      reg_apply r (RegOp.terminal u h) = reg_remove r u) ∧
    (∀ e : Env, e.registryHasOther = true →
      Effect.registryInsert ∉ process_images_run e) := by
  refine ⟨atMostOne_foldl ops [] (fun u2 => by simp), ?_, ?_, ?_, ?_⟩
  · intro r h h0 hg
    simp [reg_apply, hg]
  · intro r h hg
    simp [reg_apply, hg]
  · intro r h hg
    simp [reg_apply, hg]
  · intro e hro hmem
    unfold process_images_run at hmem
    cases hcap : process_images_capacity e.task_type e.images with
    | rejected r2 => rw [hcap] at hmem; simp at hmem
    | accepted kept discarded =>
      rw [hcap] at hmem
      rcases List.mem_cons.mp hmem with h | h
      · simp at h
      rcases List.mem_cons.mp h with h | h
      · simp at h
      rcases List.mem_cons.mp h with h | h
      · simp at h
      rcases List.mem_append.mp h with h | h
      · rcases mem_materializeLoop h with ⟨j, hj⟩ | hj | hj <;> simp at hj
      cases hab : (materializeLoop e 0 kept).2 <;> rw [hab] at h
      · simp only [Bool.false_eq_true, if_false] at h
        rcases List.mem_cons.mp h with h | h
        · simp at h
        rw [hro] at h
        simp only [if_true] at h
        rcases mem_taskDoneGuarded h with h | h <;> simp at h
      · simp only [if_true] at h
        simp at h

/-- Closed instance of `c5_single_flight`: a duplicate submit for user 1 is
ignored, the guarded terminal cleanup with a stale handle is a no-op, and
the final registry still holds exactly the first handle. -/
theorem c5_single_flight_witness :
    atMostOne ([RegOp.submit 1 10, RegOp.submit 1 20,
      RegOp.terminal 1 20].foldl reg_apply []) ∧
    reg_apply [(1, 10)] (RegOp.submit 1 20) = [(1, 10)] ∧
    reg_apply [(1, 10)] (RegOp.terminal 1 20) = [(1, 10)] ∧
    reg_apply [(1, 10)] (RegOp.terminal 1 10) = reg_remove [(1, 10)] 1 :=
  ⟨(c5_single_flight [RegOp.submit 1 10, RegOp.submit 1 20,
      RegOp.terminal 1 20] 1).1,
    (c5_single_flight [] 1).2.1 [(1, 10)] 20 10 (by decide),
    (c5_single_flight [] 1).2.2.1 [(1, 10)] 20 (by decide),
    (c5_single_flight [] 1).2.2.2.1 [(1, 10)] 10 (by decide)⟩

/-! ### C10: dispatch of the begin-request commands -/

def cmdStart : String := "start"
def cmdHelp : String := "help"
def cmdAbout : String := "about"
def cmdCommands : String := "commands"
def cmdRequest : String := "request"
def cmdCancel : String := "cancel"
def cmdP2st : String := "p2st"
def cmdP2avg : String := "p2avg"
def cmdP2am : String := "p2am"
def cmdP2ac : String := "p2ac"
def cmdP2gu : String := "p2gu"
def txtStart : String := "/start"
def txtHelp : String := "/help"
def txtAbout : String := "/about"
def txtCommands : String := "/commands"
def txtRequest : String := "/request"
def cancelWord : String := "cancel"
def okWord : String := "OK"
def labelStyleTransfer : String := "Style transfer to one image from another"
def labelVanGogh : String := "Artist: Vincent Willem van Gogh"
def labelMonet : String := "Artist: Oscar-Claude Monet"
def labelCezanne : String := "Artist: Paul Cézann"
def labelUkiyoe : String := "Genre: Ukiyo-e"

def welcomeCommands : List String :=
  [cmdStart, cmdHelp, cmdAbout, cmdCommands, cmdRequest]

def shortcutCommands : List String :=
  [cmdP2st, cmdP2avg, cmdP2am, cmdP2ac, cmdP2gu]

/-- The five `task_types_to_buttons` labels (bot.py lines 38-44). -/
def buttonLabels : List String :=
  [labelStyleTransfer, labelVanGogh, labelMonet, labelCezanne, labelUkiyoe]

/-- `Text(contains=pat, ignore_case=True)`: substring check on the
lowercased message text. -/
def textContainsCI (t pat : String) : Bool :=
  charListHasSub (pat.data.map Char.toLower) (t.data.map Char.toLower)

/-- Content classes relevant to the registered handlers: text messages
(the default `content_types` of a handler), photos, documents, and the
`BAD_CONTENT` remainder (bot.py lines 369-372). -/
inductive ContentKind where
  | text
  | photo
  | document
  | badContent
deriving DecidableEq, Repr

/-- An inbound message as the dispatcher's filters see it: the parsed
command name (for `/cmd` texts), the raw text, and its content class. -/
structure Msg where
  command : Option String
  text : String
  content : ContentKind
deriving DecidableEq, Repr

/-- The `commands=` filter: the message is a command whose name is in the
given list. -/
def msgIsCommandIn (m : Msg) (cmds : List String) : Bool :=
  match m.command with
  | some c => cmds.contains c
  | none => false

/-- The state argument of a handler registration. -/
inductive StateSpec where
  | defaultOnly
  | anyState
  | exact (s : FSMState)

/-- Modelled from aiogram 2.x `StateFilter` semantics: a handler registered
without a `state` argument gets a state filter of `None`, which matches
only when the user has no FSM state set; `state="*"` matches any state; a
concrete state matches only itself. -/
def stateSpecMatches : StateSpec → Option FSMState → Bool
  | StateSpec.defaultOnly, none => true
  | StateSpec.defaultOnly, some _ => false
  | StateSpec.anyState, _ => true
  | StateSpec.exact s, some s2 => s == s2
  | StateSpec.exact _, none => false

/-- The message handlers of bot.py in registration (source) order. -/
inductive HandlerId where
  | sendWelcome
  | cancelHandler
  | styleChosenHandler
  | saveImages
  | processImages
  | imageWrongTime
  | badContent
  | anyOtherMessage
deriving DecidableEq, Repr

/-- The registered filters of each handler, transcribed from its
decorators (a handler with several `message_handler` decorators matches
when any of them does). -/
def handlerMatches (cur : Option FSMState) (m : Msg) : HandlerId → Bool
  | HandlerId.sendWelcome =>
    (m.content == ContentKind.text) && msgIsCommandIn m welcomeCommands &&
      stateSpecMatches StateSpec.defaultOnly cur
  | HandlerId.cancelHandler =>
    (m.content == ContentKind.text) &&
      (msgIsCommandIn m [cmdCancel] && stateSpecMatches StateSpec.anyState cur ||
        textContainsCI m.text cancelWord &&
          stateSpecMatches StateSpec.anyState cur)
  | HandlerId.styleChosenHandler =>
    (m.content == ContentKind.text) &&
      (msgIsCommandIn m shortcutCommands &&
          stateSpecMatches StateSpec.defaultOnly cur ||
        buttonLabels.any (fun l => strContains m.text l) &&
          stateSpecMatches
            (StateSpec.exact FSMState.waiting_for_style_chosen) cur)
  | HandlerId.saveImages =>
    (m.content == ContentKind.photo || m.content == ContentKind.document) &&
      stateSpecMatches (StateSpec.exact FSMState.waiting_for_images) cur
  | HandlerId.processImages =>
    (m.content == ContentKind.text) && textContainsCI m.text okWord &&
      stateSpecMatches (StateSpec.exact FSMState.waiting_for_images) cur
  | HandlerId.imageWrongTime =>
    (m.content == ContentKind.photo || m.content == ContentKind.document) &&
      stateSpecMatches StateSpec.anyState cur
  | HandlerId.badContent =>
    (m.content == ContentKind.badContent) &&
      stateSpecMatches StateSpec.anyState cur
  | HandlerId.anyOtherMessage =>
    (m.content == ContentKind.text) && stateSpecMatches StateSpec.anyState cur

def handlerOrder : List HandlerId :=
  [HandlerId.sendWelcome, HandlerId.cancelHandler,
    HandlerId.styleChosenHandler, HandlerId.saveImages,
    HandlerId.processImages, HandlerId.imageWrongTime,
    HandlerId.badContent, HandlerId.anyOtherMessage]

/-- aiogram dispatch: the first registered handler whose filters all match
handles the message. -/
def dispatch (cur : Option FSMState) (m : Msg) : Option HandlerId :=
  handlerOrder.find? (handlerMatches cur m)

/-- Immediate mutations a dispatched handler performs on the shared
per-user data: the FSM state it leaves behind, whether it popped the
user's `REQUESTS_IN_PROCESSING` entry, and whether it requested
cancellation of the in-flight future. -/
structure DispatchOutcome where
  newState : Option FSMState
  registryPopped : Bool
  cancelRequested : Bool
deriving DecidableEq, Repr

/-- bot.py lines 80-91: `send_welcome` unconditionally sets
`waiting_for_style_chosen` and touches neither the registry nor any
future. -/
def send_welcome_step (cur : Option FSMState) : DispatchOutcome :=
  { newState := some FSMState.waiting_for_style_chosen
    registryPopped := false
    cancelRequested := false }

/-- bot.py lines 385-396: the catch-all text handler only replies with
guidance; it mutates nothing. -/
def any_other_message_step (cur : Option FSMState) : DispatchOutcome :=
  { newState := cur
    registryPopped := false
    cancelRequested := false }

def startMsg : Msg :=
  { command := some cmdStart, text := txtStart, content := ContentKind.text }

/-- The five begin-request command messages (`/start`, `/help`, `/about`,
`/commands`, `/request`). -/
def beginMsgs : List Msg :=
  [{ command := some cmdStart, text := txtStart, content := ContentKind.text },
    { command := some cmdHelp, text := txtHelp, content := ContentKind.text },
    { command := some cmdAbout, text := txtAbout, content := ContentKind.text },
    { command := some cmdCommands, text := txtCommands,
      content := ContentKind.text },
    { command := some cmdRequest, text := txtRequest,
      content := ContentKind.text }]

/-- C10 as stated is false: `/start` sent while the conversation is in
`Processing` is not handled by `send_welcome` (whose missing state filter
matches only users with no FSM state) — it falls through to the catch-all
handler, which leaves the state at `Processing` and does not reset it to
`ChoosingJobType`. -/
theorem c10_counterexample :
    dispatch (some FSMState.processing) startMsg =
      some HandlerId.anyOtherMessage ∧
    some HandlerId.anyOtherMessage ≠ some HandlerId.sendWelcome ∧
    (any_other_message_step (some FSMState.processing)).newState =
      some FSMState.processing ∧
    (any_other_message_step (some FSMState.processing)).registryPopped =
      false ∧
    (any_other_message_step (some FSMState.processing)).cancelRequested =
      false := by decide

/-- C10 amended: the begin-request handler is dispatched only when the user
has no FSM state set (Idle); it then unconditionally moves the state to
`ChoosingJobType` and touches neither the registry nor the in-flight
future.  In every active state — including `Processing` — a begin-request
command falls through to the catch-all guidance handler, which changes
nothing: the state, the user's `REQUESTS_IN_PROCESSING` entry and the
in-flight computation all stay as they were. -/
theorem c10_begin_request_only_when_stateless (m : Msg) (hm : m ∈ beginMsgs)
    (cur : Option FSMState) :
    (cur = none →
      dispatch cur m = some HandlerId.sendWelcome ∧
      (send_welcome_step cur).newState =
        some FSMState.waiting_for_style_chosen ∧
      (send_welcome_step cur).registryPopped = false ∧
      (send_welcome_step cur).cancelRequested = false) ∧
    (cur ≠ none →
      dispatch cur m = some HandlerId.anyOtherMessage ∧
      (any_other_message_step cur).newState = cur ∧
      (any_other_message_step cur).registryPopped = false ∧
      (any_other_message_step cur).cancelRequested = false) := by
  fin_cases hm <;> (revert cur; decide)

/-- Closed instance of `c10_begin_request_only_when_stateless`: with no
state set, `/start` reaches `send_welcome`, which moves the user to
`ChoosingJobType`. -/
theorem c10_begin_request_witness :
    dispatch none startMsg = some HandlerId.sendWelcome ∧
    (send_welcome_step none).newState =
      some FSMState.waiting_for_style_chosen :=
  ⟨((c10_begin_request_only_when_stateless startMsg (by decide) none).1
      rfl).1,
    ((c10_begin_request_only_when_stateless startMsg (by decide) none).1
      rfl).2.1⟩

end NSTBot
